import Mathlib

/-!
Verification of the raisex-hyamasaki/my-blog front-end.

The repository is a Next.js blog client over a Strapi content API.  The
definitions below are a shallow embedding of the client-side logic of
`pages/index.tsx` (fetch + sort, search filter, pagination, page-change
handler) and `pages/articles/[id].tsx` (server-side article fetch, the
not-found branch of the component, and the custom Markdown renderers for
`code`, `pre` and `p`).  External effects (HTTP fetch, `Date` parsing) are
modelled as explicit parameters: a fetch outcome is an `Except` value and
`new Date(s).getTime()` is an arbitrary function `getTime : String → Int`.
-/

namespace MyBlog

/-- A tag object as returned by the Strapi API (`tag.id`, `tag.name`). -/
structure Tag where
  id : Int
  name : String
deriving DecidableEq

/-- An article item of the index-page API response.  `content` is optional:
the filter in `pages/index.tsx` accesses it with optional chaining
(`article.content?.toLowerCase()`).  `updatedAt` is the raw timestamp string;
the sort converts it with `new Date(...).getTime()`, modelled by a `getTime`
parameter. -/
structure Article where
  id : Int
  documentId : String
  title : String
  content : Option String
  publishedAt : String
  updatedAt : String
  thumbnail : Option String
  tags : List Tag
deriving DecidableEq

/-- The JSON body of the index-page fetch: `json.data` may be absent
(the code guards with `json.data || []`). -/
structure IndexResponse where
  data : Option (List Article)

/-- `PAGE_SIZE` from `pages/index.tsx` line 8. -/
def PAGE_SIZE : Nat := 15

/-- JS `Array.prototype.slice(start, stop)` for non-negative indices:
the elements from `start` (inclusive) to `stop` (exclusive). -/
def jsSlice {α : Type} (l : List α) (start stop : Nat) : List α :=
  (l.take stop).drop start

/-- JS `String.prototype.includes`: `jsIncludes s sub` is true when `sub`
occurs as a contiguous substring of `s`. -/
def jsIncludes (s sub : String) : Bool :=
  decide (sub.data <:+: s.data)

/-- The sort inside `fetchArticles` (`pages/index.tsx` lines 24-28):
`(json.data || []).sort((a, b) => dateB - dateA)` where
`dateA = new Date(a.updatedAt).getTime()`.  The comparator puts `a` before
`b` exactly when `getTime b.updatedAt ≤ getTime a.updatedAt`, i.e. it sorts
by descending update time. -/
def sortArticles (getTime : String → Int) (articles : List Article) : List Article :=
  articles.mergeSort (fun a b => decide (getTime b.updatedAt ≤ getTime a.updatedAt))

/-- The state update performed by `fetchArticles` (`pages/index.tsx` lines
17-34): on a successful fetch it stores the sorted `json.data || []`; when
the fetch throws it only logs, leaving the `articles` state unchanged. -/
def fetchArticlesUpdate (getTime : String → Int) (result : Except Unit IndexResponse)
    (articles : List Article) : List Article :=
  match result with
  | Except.ok json => sortArticles getTime (json.data.getD [])
  | Except.error _ => articles

/-- The content half of the filter predicate (`article.content?.toLowerCase()
.includes(keyword)`): a missing `content` is falsy. -/
def contentMatches (keyword : String) (content : Option String) : Bool :=
  match content with
  | some c => jsIncludes c.toLower keyword
  | none => false

/-- The filter predicate of `filteredArticles` (`pages/index.tsx` lines
39-45): the lowercased title or the lowercased content contains the
lowercased search query. -/
def articleMatches (searchQuery : String) (a : Article) : Bool :=
  jsIncludes a.title.toLower searchQuery.toLower ||
    contentMatches searchQuery.toLower a.content

/-- `filteredArticles` (`pages/index.tsx` lines 39-45). -/
def filteredArticles (searchQuery : String) (articles : List Article) : List Article :=
  articles.filter (articleMatches searchQuery)

/-- `totalPages = Math.ceil(filteredArticles.length / PAGE_SIZE)`
(`pages/index.tsx` line 47), with `Math.ceil` of the exact rational
quotient. -/
def totalPages (n : Nat) : Nat :=
  Nat.ceil ((n : ℚ) / (PAGE_SIZE : ℚ))

/-- One page of a list: `slice((p - 1) * PAGE_SIZE, p * PAGE_SIZE)`. -/
def pageSlice {α : Type} (l : List α) (currentPage : Nat) : List α :=
  jsSlice l ((currentPage - 1) * PAGE_SIZE) (currentPage * PAGE_SIZE)

/-- `paginatedArticles` (`pages/index.tsx` lines 49-52): the current page's
slice of the filtered list. -/
def paginatedArticles (searchQuery : String) (articles : List Article)
    (currentPage : Nat) : List Article :=
  pageSlice (filteredArticles searchQuery articles) currentPage

/-- The view-mode toggle state (`'card' | 'list'`). -/
inductive ViewMode where
  | card
  | list
deriving DecidableEq

/-- The React state of the `Home` component in `pages/index.tsx`. -/
structure HomeState where
  articles : List Article
  viewMode : ViewMode
  currentPage : Int
  searchQuery : String
deriving DecidableEq

/-- `handlePageChange` (`pages/index.tsx` lines 54-58): sets `currentPage`
to `newPage` when `newPage >= 1 && newPage <= totalPages`, otherwise does
nothing. -/
def handlePageChange (s : HomeState) (newPage : Int) : HomeState :=
  if 1 ≤ newPage ∧
      newPage ≤ (totalPages (filteredArticles s.searchQuery s.articles).length : Int) then
    { s with currentPage := newPage }
  else
    s

/-- The Next.js route parameter `context.params.id`: in Next.js it has type
`string | string[] | undefined`; `getServerSideProps` only proceeds when it
is a string. -/
inductive IdParam where
  | str (s : String)
  | arr (l : List String)
  | missing
deriving DecidableEq

/-- An item of the detail-page API response (`json.data[0]`); the code uses
its `id`, `title`, `content`, `publishedAt` and `updatedAt` fields. -/
structure RawItem where
  id : Int
  title : String
  content : String
  publishedAt : String
  updatedAt : String
deriving DecidableEq

/-- The JSON body of the detail-page fetch: `json.data` may be absent. -/
structure ApiResponse where
  data : Option (List RawItem)
deriving DecidableEq

/-- The `Article` type of `pages/articles/[id].tsx` (the props payload). -/
structure DetailArticle where
  id : Int
  title : String
  content : String
  publishedAt : String
  updatedAt : String
deriving DecidableEq

/-- `getServerSideProps` of `pages/articles/[id].tsx` lines 146-183, as the
`article` field of the returned props.  The fetch outcome is a parameter:
`Except.error` models the fetch (or `res.json()`) throwing.  The function
returns `none` when the route id is not a string, when the fetch throws, or
when `json.data` is missing or empty; otherwise it builds the article from
`json.data[0]`. -/
def getServerSideProps (id : IdParam) (fetchResult : Except Unit ApiResponse) :
    Option DetailArticle :=
  match id with
  | IdParam.str _ =>
    match fetchResult with
    | Except.error _ => none
    | Except.ok json =>
      match json.data with
      | none => none
      | some [] => none
      | some (item :: _) =>
        some { id := item.id, title := item.title, content := item.content,
               publishedAt := item.publishedAt, updatedAt := item.updatedAt }
  | _ => none

/-- What the `ArticleDetail` component renders at the top level: the
not-found message, or the article page built from the props. -/
inductive DetailRender where
  | notFound
  | page (title : String) (content : String) (updatedAt : String)
deriving DecidableEq

/-- The top-level branch of `ArticleDetail` (`pages/articles/[id].tsx` line
41): `if (!article) return <p>記事が見つかりません</p>`, otherwise the page
renders `title`, `content` and `updatedAt`. -/
def renderDetail (article : Option DetailArticle) : DetailRender :=
  match article with
  | none => DetailRender.notFound
  | some a => DetailRender.page a.title a.content a.updatedAt

/-- A rendered `code` element: the custom renderer only varies the inline
style's background colour and the class string. -/
structure CodeElement where
  backgroundColor : Option String
  className : String
  children : String
deriving DecidableEq

/-- The yellow background of inline code (`pages/articles/[id].tsx` line 82). -/
def yellowBg : String := "#fff8b3"

/-- The custom `code` renderer (`pages/articles/[id].tsx` lines 76-100): the
inline branch returns a `code` element whose style sets the yellow
background (the `className` prop is destructured away there); the block
branch returns a `code` element with no `style` and a transparent-background
class string. -/
def renderCode (inline : Bool) (className : Option String) (children : String) :
    CodeElement :=
  if inline then
    { backgroundColor := some yellowBg, className := "", children := children }
  else
    { backgroundColor := none,
      className := (className.getD "") ++ " bg-transparent text-sm font-mono",
      children := children }

/-- A rendered `pre` node: the wrapper `div` carries the copy button and the
`pre` with the original children. -/
structure PreWrapper where
  hasCopyButton : Bool
  children : String
deriving DecidableEq

/-- The custom `pre` renderer (`pages/articles/[id].tsx` lines 101-110): it
wraps every `pre` in a relative `div` containing a `copy-button` button. -/
def renderPre (children : String) : PreWrapper :=
  { hasCopyButton := true, children := children }

/-- A child node of a Markdown paragraph as the `p` renderer sees it: either
a plain string, or a rendered React element whose props may carry an `href`
(links do) and whose own content is irrelevant to the renderer. -/
inductive MdChild where
  | text (s : String)
  | element (href : Option String) (label : String)
deriving DecidableEq

/-- The promotional link target checked by the `p` renderer. -/
def recruitUrl : String := "https://en-gage.net/raisex_jobs/"

/-- What the `p` renderer produces: the recruit banner block, or a plain
paragraph with the children unchanged. -/
inductive ParagraphRender where
  | recruitBanner (href : String)
  | plain (children : List MdChild)
deriving DecidableEq

/-- The custom `p` renderer of the article detail page: it inspects
`children[0]`; when that child is an element whose `props.href` equals
`recruitUrl` it renders the recruit banner (using that href), otherwise it
renders `<p>{children}</p>`. -/
def renderParagraph (children : List MdChild) : ParagraphRender :=
  match children.head? with
  | some (MdChild.element (some href) _) =>
    if href = recruitUrl then ParagraphRender.recruitBanner href
    else ParagraphRender.plain children
  | _ => ParagraphRender.plain children

/-- A concrete article used by the closed witness theorems. -/
def artA : Article :=
  { id := 1, documentId := "a1", title := "Hello", content := some "World",
    publishedAt := "2024-01-01T00:00:00.000Z",
    updatedAt := "2024-01-02T00:00:00.000Z", thumbnail := none, tags := [] }

/-- A concrete response item used by the closed witness theorems. -/
def item0 : RawItem :=
  { id := 7, title := "T", content := "C", publishedAt := "P", updatedAt := "U" }

/-- A concrete `Home` state used by the closed witness theorems. -/
def st8 : HomeState :=
  { articles := [artA], viewMode := ViewMode.card, currentPage := 1,
    searchQuery := "" }

/-! ### Helper lemmas -/

/-- `Math.ceil(n / 15)` agrees with the rounded-up natural division
`(n + 14) / 15`. -/
theorem totalPages_eq (n : Nat) : totalPages n = (n + PAGE_SIZE - 1) / PAGE_SIZE := by
  unfold totalPages PAGE_SIZE
  apply le_antisymm
  · apply Nat.ceil_le.mpr
    rw [div_le_iff₀ (by norm_num : (0 : ℚ) < ((15 : Nat) : ℚ))]
    have h : n ≤ ((n + 15 - 1) / 15) * 15 := by omega
    exact_mod_cast h
  · have h := Nat.le_ceil ((n : ℚ) / ((15 : Nat) : ℚ))
    rw [div_le_iff₀ (by norm_num : (0 : ℚ) < ((15 : Nat) : ℚ))] at h
    have hn : n ≤ Nat.ceil ((n : ℚ) / ((15 : Nat) : ℚ)) * 15 := by exact_mod_cast h
    omega

/-- The first page is the first `PAGE_SIZE` elements. -/
theorem pageSlice_one {α : Type} (l : List α) : pageSlice l 1 = l.take PAGE_SIZE := by
  simp [pageSlice, jsSlice]

/-- Page `i + 2` of a list is page `i + 1` of the list with its first
`PAGE_SIZE` elements dropped. -/
theorem pageSlice_succ_succ {α : Type} (l : List α) (i : Nat) :
    pageSlice l (i + 2) = pageSlice (l.drop PAGE_SIZE) (i + 1) := by
  simp only [pageSlice, jsSlice, Nat.add_sub_cancel, List.take_drop, List.drop_drop]
  congr 2 <;> · simp only [PAGE_SIZE]; omega

/-- Concatenating pages `1 .. totalPages` of a list recovers the list. -/
theorem flatten_pageSlices {α : Type} :
    ∀ (n : Nat) (l : List α), l.length ≤ n →
      ((List.range (totalPages l.length)).map (fun i => pageSlice l (i + 1))).flatten = l := by
  intro n
  induction n with
  | zero =>
    intro l h
    have hl : l = [] := List.length_eq_zero.mp (Nat.le_zero.mp h)
    subst hl
    simp [totalPages_eq, PAGE_SIZE]
  | succ n ih =>
    intro l h
    by_cases hl : l = []
    · subst hl
      simp [totalPages_eq, PAGE_SIZE]
    · have hlen : 1 ≤ l.length := by
        cases l with
        | nil => exact absurd rfl hl
        | cons a t => simp
      have hstep : totalPages l.length = totalPages (l.drop PAGE_SIZE).length + 1 := by
        rw [totalPages_eq, totalPages_eq, List.length_drop]
        simp only [PAGE_SIZE]
        omega
      have hcomp : ((fun i => pageSlice l (i + 1)) ∘ Nat.succ)
          = fun i => pageSlice (l.drop PAGE_SIZE) (i + 1) := by
        funext i
        exact pageSlice_succ_succ l i
      have hdlen : (l.drop PAGE_SIZE).length ≤ n := by
        rw [List.length_drop]
        simp only [PAGE_SIZE]
        omega
      rw [hstep, List.range_succ_eq_map, List.map_cons, List.map_map, hcomp,
        List.flatten_cons, pageSlice_one, ih (l.drop PAGE_SIZE) hdlen,
        List.take_append_drop]

/-- `contentMatches` as a proposition: some content exists and contains the
keyword. -/
theorem contentMatches_iff (keyword : String) (o : Option String) :
    contentMatches keyword o = true ↔
      ∃ c, o = some c ∧ jsIncludes c.toLower keyword = true := by
  cases o <;> simp [contentMatches]

/-! ### Claim theorems -/

/-- The merge sort used by `fetchArticles` yields a permutation of its
input in which adjacent articles have non-increasing `updatedAt` times. -/
theorem sortArticles_sorted (getTime : String → Int) (l : List Article) :
    (sortArticles getTime l).Perm l ∧
      List.Chain' (fun a b => getTime b.updatedAt ≤ getTime a.updatedAt)
        (sortArticles getTime l) := by
  constructor
  · exact List.mergeSort_perm l _
  · apply List.Pairwise.chain'
    have h : (List.mergeSort l
          (fun a b : Article => decide (getTime b.updatedAt ≤ getTime a.updatedAt))).Pairwise
        (fun a b : Article =>
          decide (getTime b.updatedAt ≤ getTime a.updatedAt) = true) := by
      apply List.sorted_mergeSort
      · intro a b c hab hbc
        simp only [decide_eq_true_eq] at hab hbc ⊢
        omega
      · intro a b
        simp only [Bool.or_eq_true, decide_eq_true_eq]
        omega
    exact h.imp (fun hab => by simpa using hab)

/-- C1: for every JSON response whose `data` field is a list of articles,
the article list the index page stores (and renders) is that list sorted in
descending order of the `updatedAt` time: it is a permutation of the
response's list, and for any two adjacent articles in the stored order the
first has an `updatedAt` time at least the second's.  This holds for every
time interpretation `getTime` of the `updatedAt` string (in the code,
`s => new Date(s).getTime()`). -/
theorem fetchArticles_sorted_desc (getTime : String → Int) (json : IndexResponse)
    (st l : List Article) (hd : json.data = some l) :
    (fetchArticlesUpdate getTime (Except.ok json) st).Perm l ∧
      List.Chain' (fun a b => getTime b.updatedAt ≤ getTime a.updatedAt)
        (fetchArticlesUpdate getTime (Except.ok json) st) := by
  have he : fetchArticlesUpdate getTime (Except.ok json) st = sortArticles getTime l := by
    simp [fetchArticlesUpdate, hd]
  rw [he]
  exact sortArticles_sorted getTime l

/-- A fixed time interpretation used by the closed witness theorems. -/
def getTime0 : String → Int := fun _ => 0

/-- Closed instance of C1: a one-article response is stored as that same
one-article list, sorted. -/
theorem fetchArticles_sorted_desc_witness :
    (fetchArticlesUpdate getTime0 (Except.ok { data := some [artA] }) []).Perm [artA] ∧
      List.Chain' (fun a b => getTime0 b.updatedAt ≤ getTime0 a.updatedAt)
        (fetchArticlesUpdate getTime0 (Except.ok { data := some [artA] }) []) :=
  fetchArticles_sorted_desc getTime0 { data := some [artA] } [] [artA] rfl

/-- C2: the search filter keeps exactly the articles whose lowercased title
contains the lowercased query, or whose (present) lowercased content
contains the lowercased query, and it preserves the relative order of the
kept articles (the result is a sublist of the input). -/
theorem filteredArticles_spec (searchQuery : String) (articles : List Article) :
    (∀ a : Article,
        a ∈ filteredArticles searchQuery articles ↔
          a ∈ articles ∧
            (jsIncludes a.title.toLower searchQuery.toLower = true ∨
              ∃ c, a.content = some c ∧
                jsIncludes c.toLower searchQuery.toLower = true)) ∧
      (filteredArticles searchQuery articles).Sublist articles := by
  constructor
  · intro a
    rw [filteredArticles, List.mem_filter, articleMatches, Bool.or_eq_true,
      contentMatches_iff]
  · exact List.filter_sublist _

/-- C9: filtering with the empty search query keeps every article: the
filter is the identity on the article list. -/
theorem filteredArticles_empty_query (articles : List Article) :
    filteredArticles "" articles = articles := by
  apply List.filter_eq_self.mpr
  intro a _
  have hkw : ("" : String).toLower = "" := by
    show String.map Char.toLower "" = ""
    rw [String.map_eq]
    rfl
  rw [articleMatches, hkw, Bool.or_eq_true]
  left
  rw [jsIncludes, decide_eq_true_eq]
  exact List.nil_infix

/-- C3: for a page number `p ≥ 1`, the rendered page is the slice of the
filtered list from index `(p - 1) * PAGE_SIZE` (inclusive) to
`p * PAGE_SIZE` (exclusive), i.e. the `PAGE_SIZE`-element window starting at
`(p - 1) * PAGE_SIZE`, and the displayed total page count
`Math.ceil(n / PAGE_SIZE)` equals the rounded-up division
`(n + PAGE_SIZE - 1) / PAGE_SIZE`. -/
theorem paginatedArticles_slice (searchQuery : String) (articles : List Article)
    (p : Nat) (hp : 1 ≤ p) :
    paginatedArticles searchQuery articles p
        = ((filteredArticles searchQuery articles).drop ((p - 1) * PAGE_SIZE)).take
            PAGE_SIZE ∧
      totalPages (filteredArticles searchQuery articles).length
        = ((filteredArticles searchQuery articles).length + PAGE_SIZE - 1) / PAGE_SIZE := by
  constructor
  · have h : p * PAGE_SIZE = (p - 1) * PAGE_SIZE + PAGE_SIZE := by
      simp only [PAGE_SIZE]
      omega
    simp only [paginatedArticles, pageSlice, jsSlice, h, List.take_drop]
  · exact totalPages_eq _

/-- Closed instance of C3 at a concrete state: one article, empty query,
page 1. -/
theorem paginatedArticles_slice_witness :
    paginatedArticles "" [artA] 1
        = ((filteredArticles "" [artA]).drop ((1 - 1) * PAGE_SIZE)).take PAGE_SIZE ∧
      totalPages (filteredArticles "" [artA]).length
        = ((filteredArticles "" [artA]).length + PAGE_SIZE - 1) / PAGE_SIZE :=
  paginatedArticles_slice "" [artA] 1 (by decide)

/-- C10: pagination partitions the filtered list: concatenating the page
slices for pages `1` through `totalPages`, in order, yields exactly the
filtered list. -/
theorem paginatedArticles_partition (searchQuery : String) (articles : List Article) :
    ((List.range (totalPages (filteredArticles searchQuery articles).length)).map
        (fun i => paginatedArticles searchQuery articles (i + 1))).flatten
      = filteredArticles searchQuery articles :=
  flatten_pageSlices (filteredArticles searchQuery articles).length
    (filteredArticles searchQuery articles) le_rfl

/-- C5: the two catch branches are the only failure handling: when the
index-page fetch throws, the `articles` state is left unchanged, and when
the detail-page fetch throws, `getServerSideProps` returns a null article —
for every route id and every prior state. -/
theorem fetch_failure_handling (getTime : String → Int) (articles : List Article)
    (id : IdParam) :
    fetchArticlesUpdate getTime (Except.error ()) articles = articles ∧
      getServerSideProps id (Except.error ()) = none := by
  constructor
  · rfl
  · cases id <;> rfl

/-- C6: `getServerSideProps` returns a null article exactly when the route
id is not a string, or the fetch throws, or the response's `data` field is
missing or empty; otherwise the returned article's fields equal those of the
first element of `data`; and the component renders the not-found message
precisely when the article is null. -/
theorem getServerSideProps_null_iff (id : IdParam) (r : Except Unit ApiResponse) :
    (getServerSideProps id r = none ↔
        (∀ s, id ≠ IdParam.str s) ∨ r = Except.error () ∨
          ∃ json, r = Except.ok json ∧ (json.data = none ∨ json.data = some [])) ∧
      (∀ s json item rest,
          id = IdParam.str s → r = Except.ok json → json.data = some (item :: rest) →
            getServerSideProps id r
              = some { id := item.id, title := item.title, content := item.content,
                       publishedAt := item.publishedAt, updatedAt := item.updatedAt }) ∧
      (∀ a : Option DetailArticle,
          renderDetail a = DetailRender.notFound ↔ a = none) := by
  refine ⟨?_, ?_, ?_⟩
  · cases id with
    | str s =>
      cases r with
      | error e => simp [getServerSideProps]
      | ok json =>
        rcases hd : json.data with _ | ⟨_ | ⟨item, rest⟩⟩ <;>
          simp [getServerSideProps, hd]
    | arr l =>
      simp only [getServerSideProps, true_iff]
      exact Or.inl (fun s h => by cases h)
    | missing =>
      simp only [getServerSideProps, true_iff]
      exact Or.inl (fun s h => by cases h)
  · intro s json item rest hid hr hd
    subst hid
    subst hr
    simp [getServerSideProps, hd]
  · intro a
    cases a <;> simp [renderDetail]

/-- Closed instance of C6: a string id and a one-item response produce the
article built from that item. -/
theorem getServerSideProps_null_iff_witness :
    getServerSideProps (IdParam.str "doc1") (Except.ok { data := some [item0] })
      = some { id := item0.id, title := item0.title, content := item0.content,
               publishedAt := item0.publishedAt, updatedAt := item0.updatedAt } :=
  (getServerSideProps_null_iff (IdParam.str "doc1")
      (Except.ok { data := some [item0] })).2.1 "doc1" _ item0 [] rfl rfl rfl

/-- C7: the custom `code` renderer branches only on the `inline` flag: the
inline branch yields a `code` element whose style carries the yellow
background, the block branch yields a `code` element with no background
style, and the `pre` renderer wraps every `pre` in a container carrying the
copy button. -/
theorem code_renderer_spec (className : Option String) (children preChildren : String) :
    (renderCode true className children).backgroundColor = some yellowBg ∧
      (renderCode false className children).backgroundColor = none ∧
      (renderPre preChildren).hasCopyButton = true :=
  ⟨rfl, rfl, rfl⟩

/-- C8: `handlePageChange` sets `currentPage` to the requested page exactly
when it lies between `1` and `totalPages`, leaves it unchanged otherwise,
and never modifies the articles, view mode or search query. -/
theorem handlePageChange_spec (s : HomeState) (newPage : Int) :
    ((1 ≤ newPage ∧
        newPage ≤ (totalPages (filteredArticles s.searchQuery s.articles).length : Int)) →
          (handlePageChange s newPage).currentPage = newPage) ∧
      (¬(1 ≤ newPage ∧
          newPage ≤ (totalPages (filteredArticles s.searchQuery s.articles).length : Int)) →
            (handlePageChange s newPage).currentPage = s.currentPage) ∧
      (handlePageChange s newPage).articles = s.articles ∧
      (handlePageChange s newPage).viewMode = s.viewMode ∧
      (handlePageChange s newPage).searchQuery = s.searchQuery := by
  by_cases h : 1 ≤ newPage ∧
      newPage ≤ (totalPages (filteredArticles s.searchQuery s.articles).length : Int)
  · simp [handlePageChange, h]
  · simp [handlePageChange, h]

/-- Closed instance of C8: requesting page `0` is rejected and the whole
state is unchanged. -/
theorem handlePageChange_spec_witness :
    (handlePageChange st8 0).currentPage = st8.currentPage ∧
      (handlePageChange st8 0).articles = st8.articles :=
  ⟨(handlePageChange_spec st8 0).2.1 (fun h => absurd h.1 (by decide)),
    (handlePageChange_spec st8 0).2.2.1⟩

/-- C4: a Markdown paragraph whose first child is a link element with href
exactly `recruitUrl` renders as the recruit banner, and a paragraph whose
first child is not such a link renders as a plain paragraph with its
children unchanged. -/
theorem renderParagraph_spec (children : List MdChild) :
    (∀ label rest,
        children = MdChild.element (some recruitUrl) label :: rest →
          renderParagraph children = ParagraphRender.recruitBanner recruitUrl) ∧
      ((∀ label rest, children ≠ MdChild.element (some recruitUrl) label :: rest) →
        renderParagraph children = ParagraphRender.plain children) := by
  cases children with
  | nil => exact ⟨(fun label rest h => nomatch h), fun _ => rfl⟩
  | cons c rest =>
    cases c with
    | text s =>
      refine ⟨fun label r h => ?_, fun _ => rfl⟩
      simp at h
    | element href label =>
      cases href with
      | none =>
        refine ⟨fun l r h => ?_, fun _ => rfl⟩
        simp at h
      | some u =>
        by_cases hu : u = recruitUrl
        · subst hu
          refine ⟨fun l r _ => ?_, fun hne => absurd rfl (hne label rest)⟩
          simp [renderParagraph]
        · refine ⟨fun l r h => ?_, fun _ => ?_⟩
          · simp [hu] at h
          · simp [renderParagraph, hu]

/-- Closed instance of C4: a recruit-link paragraph becomes the banner and a
text paragraph stays a plain paragraph. -/
theorem renderParagraph_spec_witness :
    renderParagraph [MdChild.element (some recruitUrl) "jobs"]
        = ParagraphRender.recruitBanner recruitUrl ∧
      renderParagraph [MdChild.text "hello"]
        = ParagraphRender.plain [MdChild.text "hello"] :=
  ⟨(renderParagraph_spec [MdChild.element (some recruitUrl) "jobs"]).1 "jobs" [] rfl,
    (renderParagraph_spec [MdChild.text "hello"]).2 (fun label rest h => by simp at h)⟩

end MyBlog
